import Mathlib

/-!
Verification of the `apk` crate's packaging core. The orchestration layer
(`Apk` in `src/apk/src/lib.rs`) is embedded directly from the source; the
chunk codec, resource table, manifest and mipmap compilers live in modules
that are not present in the source tree (`res`, `compiler`, `manifest`) and
are modelled from the spec where so marked, or kept abstract as caller-chosen
collaborator functions where only their call sites appear in the source.
-/

namespace Apk

/-! ### Chunk codec -/

/-- Modelled from the spec: a chunk of the platform's binary resource format
(`res` module, absent from the source tree). A chunk carries a type tag, the
raw header fields specific to its type, and zero or more child chunks; the
declared header/total lengths are recomputed on write, so they are not stored.
Unknown tags are preserved verbatim (pass-through mode). -/
inductive Chunk where
  | mk (tag : Nat) (fields : List Nat) (children : List Chunk)

/-- Total serialized length of a chunk: 8-byte header, header fields, children. -/
def Chunk.totalLen : Chunk → Nat
  | .mk _ fields children => 8 + fields.length + totalLenList children
where
  /-- Sum of the total lengths of a list of chunks. -/
  totalLenList : List Chunk → Nat
    | [] => 0
    | c :: cs => c.totalLen + totalLenList cs

/-- Little-endian 16-bit encoding. -/
def w16 (n : Nat) : List Nat := [n % 256, n / 256 % 256]

/-- Little-endian 32-bit encoding. -/
def w32 (n : Nat) : List Nat :=
  [n % 256, n / 256 % 256, n / 65536 % 256, n / 16777216 % 256]

/-- Little-endian 16-bit decoding. -/
def r16 (a b : Nat) : Nat := a % 256 + 256 * (b % 256)

/-- Little-endian 32-bit decoding. -/
def r32 (a b c d : Nat) : Nat :=
  a % 256 + 256 * (b % 256) + 65536 * (c % 256) + 16777216 * (d % 256)

/-- Modelled from the spec: `Chunk::write` serializes the header (tag, header
length, total length, little-endian) then the header fields then the children
in order, recomputing both lengths from actual content. -/
def Chunk.write : Chunk → List Nat
  | .mk tag fields children =>
    w16 tag ++ w16 (8 + fields.length) ++
      w32 (8 + fields.length + Chunk.totalLen.totalLenList children) ++
      fields ++ writeList children
where
  /-- Concatenated serialization of a list of chunks. -/
  writeList : List Chunk → List Nat
    | [] => []
    | c :: cs => c.write ++ writeList cs

/-- Well-formedness of a chunk as produced by this system: the tag and the
declared lengths fit their fixed-width header slots and every header-field
byte is an actual byte. -/
def Chunk.wfb : Chunk → Bool
  | .mk tag fields children =>
    decide (tag < 65536) && decide (8 + fields.length < 65536) &&
      decide (8 + fields.length + Chunk.totalLen.totalLenList children < 4294967296) &&
      fields.all (fun b => decide (b < 256)) && wfbList children
where
  /-- Well-formedness of every chunk in a list. -/
  wfbList : List Chunk → Bool
    | [] => true
    | c :: cs => c.wfb && wfbList cs

/-- Fuel needed by the recursive parser to reconstruct a chunk. -/
def Chunk.fuelFor : Chunk → Nat
  | .mk _ _ children => 1 + fuelForList children
where
  /-- Fuel needed to reconstruct a list of chunks. -/
  fuelForList : List Chunk → Nat
    | [] => 0
    | c :: cs => 1 + c.fuelFor + fuelForList cs

/-- Codec-level errors from the spec: rejecting the input is the only
recovery, no partial recovery. -/
inductive ParseError where
  | truncated
  | invalidHeader
deriving DecidableEq

mutual
/-- Modelled from the spec: `Chunk::parse` reads the fixed-size header
(tag, header length, total length), validates that the total length does not
exceed the remaining buffer (`Truncated` otherwise) and that the header length
lies between the 8-byte minimum and the total length (`InvalidHeader`
otherwise), reads the header fields, then recursively parses children until
the declared total length is consumed exactly. Returns the chunk and the
unconsumed remainder of the input. -/
def parseChunk : Nat → List Nat → Except ParseError (Chunk × List Nat)
  | 0, _ => .error .truncated
  | _ + 1, [] => .error .truncated
  | fuel + 1, t0 :: t1 :: h0 :: h1 :: l0 :: l1 :: l2 :: l3 :: rest =>
    let tag := r16 t0 t1
    let hlen := r16 h0 h1
    let tlen := r32 l0 l1 l2 l3
    if 8 + rest.length < tlen then .error .truncated
    else if hlen < 8 ∨ tlen < hlen then .error .invalidHeader
    else
      let fields := rest.take (hlen - 8)
      let body := (rest.drop (hlen - 8)).take (tlen - hlen)
      match parseChunks fuel body with
      | .error e => .error e
      | .ok children => .ok (.mk tag fields children, rest.drop (tlen - 8))
  | _ + 1, _ => .error .truncated

/-- Parses a sequence of chunks that must consume the given bytes exactly. -/
def parseChunks : Nat → List Nat → Except ParseError (List Chunk)
  | _, [] => .ok []
  | 0, _ :: _ => .error .truncated
  | fuel + 1, bs =>
    match parseChunk fuel bs with
    | .error e => .error e
    | .ok (c, rest) =>
      match parseChunks fuel rest with
      | .error e => .error e
      | .ok cs => .ok (c :: cs)
end

/-- Top-level parse entry point: fuel is bounded by the input length, which
suffices for any serialized chunk tree. -/
def Chunk.parse (bs : List Nat) : Except ParseError (Chunk × List Nat) :=
  parseChunk bs.length bs

/-! ### Resource table and collaborator interfaces -/

/-- Modelled from the spec: the resource table owns the package/type/entry
chunks merged into it. `Table::default()` (source line 41) is the empty table;
the platform base table is imported into it by `import_apk`, which is
modelled as a caller-supplied collaborator since its code is absent. -/
structure Table where
  chunks : List Chunk := []

/-- `Table::import_chunk` (called at source line 61): merges the given
type-level chunk into the table, consuming it; existing chunks keep their
position, the new chunk is appended after them. -/
def Table.import_chunk (t : Table) (c : Chunk) : Table :=
  { chunks := t.chunks ++ [c] }

/-- Modelled from the spec: `Table::serialize` freezes the current
package/type/entry state and emits the full resource-table chunk tree via the
codec — a root resource-table chunk (tag 2) whose header counts the merged
chunks and whose children are the table's current contents. -/
def Table.serialize (t : Table) : List Nat :=
  (Chunk.mk 2 (w32 t.chunks.length) t.chunks).write

/-- The application element of an `AndroidManifest`: its icon attribute, and
its other attributes kept abstract (`add_res` never touches them). -/
structure Application where
  icon : Option String
  rest : List (String × String)
deriving DecidableEq

/-- The structured manifest description `add_res` consumes, as the source
observes it: the `package` field (line 46), the `application.icon` field
(line 62), and everything else kept abstract. -/
structure AndroidManifest where
  package : String
  application : Application
  rest : List (String × String)
deriving DecidableEq

/-- The bitmap rescaler handle (`xcommon::Scaler`), opaque to the core. -/
structure Scaler where
  source : List Nat
deriving DecidableEq

/-- The result of `compile_mipmap`: the compiled type-level chunk plus the
(output-path, target-size) variant list the rescaler must produce. -/
structure Mipmap where
  chunk : Chunk
  variants : List (String × Nat)

/-- Compression/alignment options for an archive entry
(`xcommon::ZipFileOptions`, as used by `start_file`). -/
inductive ZipFileOptions where
  | aligned (n : Nat)
  | compressed
deriving DecidableEq

/-- An entry written to the zip archive: its path (components joined with
`/` by `start_file`), its options, and its byte contents. -/
structure Entry where
  name : String
  opts : ZipFileOptions
  data : List Nat
deriving DecidableEq

/-- The fallible external collaborators `add_res` invokes, one field per call
site in the source: `Table::import_apk` (line 42), `Scaler::open` (line 44),
`Scaler::optimize` (line 45, infallible), `compile_mipmap` (line 46),
`Scaler::write` (line 56), and `compile_manifest` (line 64). Their code is
absent from the source tree, so they are arbitrary caller-chosen functions;
`none` models the call returning `Err`, which `?` propagates. -/
structure ResEnv where
  importApk : Table → Option Table
  scalerOpen : String → Option Scaler
  optimize : Scaler → Scaler
  compileMipmap : String → String → Option Mipmap
  scalerWrite : Scaler → Nat → Option (List Nat)
  compileManifest : AndroidManifest → Table → Option Chunk

/-- Table-level operations performed by `add_res`, recorded in call order
with their interesting arguments. -/
inductive TableOp where
  | importApk
  | importChunk (c : Chunk)
  | compileManifest (m : AndroidManifest)

/-- Rank of a table operation in the required pipeline order: the base-table
importing first, then merge chunks, then compile the manifest. -/
def TableOp.rank : TableOp → Nat
  | .importApk => 0
  | .importChunk _ => 1
  | .compileManifest _ => 2

/-- Result of one `add_res` call: the archive entries written (in order, and
persisting even when a later step fails, as zip writes are never undone), the
table operations performed, and whether the call returned `Ok`. -/
structure ResOutcome where
  entries : List Entry
  ops : List TableOp
  ok : Bool

/-- The manifest value `add_res` passes to `compile_manifest`: the caller's
manifest with `application.icon` overwritten to `"@mipmap/icon"` when an icon
path is supplied (source line 62), unchanged otherwise. -/
def effectiveManifest (manifest : AndroidManifest) (icon : Option String) :
    AndroidManifest :=
  match icon with
  | none => manifest
  | some _ =>
    { manifest with
        application := { manifest.application with icon := some "@mipmap/icon" } }

/-- The `for (name, size) in mipmap.variants()` loop of `add_res` (source
lines 53-59): each iteration rescales the bitmap into a buffer (fallible),
then starts a 4-byte-aligned entry under the variant's path and writes the
buffer. A failing rescale stops the loop before that variant's entry is
started; entries of earlier iterations persist. -/
def writeVariants (env : ResEnv) (scaler : Scaler) :
    List (String × Nat) → List Entry × Bool
  | [] => ([], true)
  | (name, size) :: rest =>
    match env.scalerWrite scaler size with
    | none => ([], false)
    | some bytes =>
      match writeVariants env scaler rest with
      | (es, good) => (⟨name, .aligned 4, bytes⟩ :: es, good)

/-- Embedding of `Apk::add_res` (source lines 34-71). The base table is first
brought in by import_apk; when an icon path is supplied, the scaler is opened and optimized,
the mipmap family is compiled, its chunk is written as the `resources.arsc`
entry (4-byte aligned), each density variant is rescaled and written, the
chunk is merged into the table and the manifest's icon is overwritten; in all
cases the manifest is then compiled against the table and written compressed
as `AndroidManifest.xml`. Any `Err` propagates immediately via `?`, leaving
all entries already written in the archive. -/
def add_res (env : ResEnv) (manifest : AndroidManifest) (icon : Option String) :
    ResOutcome :=
  match env.importApk {} with
  | none => ⟨[], [.importApk], false⟩
  | some table =>
    match icon with
    | none =>
      match env.compileManifest (effectiveManifest manifest none) table with
      | none => ⟨[], [.importApk, .compileManifest (effectiveManifest manifest none)], false⟩
      | some c =>
        ⟨[⟨"AndroidManifest.xml", .compressed, c.write⟩],
          [.importApk, .compileManifest (effectiveManifest manifest none)], true⟩
    | some path =>
      match env.scalerOpen path with
      | none => ⟨[], [.importApk], false⟩
      | some scaler0 =>
        let scaler := env.optimize scaler0
        match env.compileMipmap manifest.package "icon" with
        | none => ⟨[], [.importApk], false⟩
        | some mipmap =>
          let arsc : Entry := ⟨"resources.arsc", .aligned 4, mipmap.chunk.write⟩
          match writeVariants env scaler mipmap.variants with
          | (ves, false) => ⟨arsc :: ves, [.importApk], false⟩
          | (ves, true) =>
            let table2 := table.import_chunk mipmap.chunk
            match env.compileManifest (effectiveManifest manifest icon) table2 with
            | none =>
              ⟨arsc :: ves,
                [.importApk, .importChunk mipmap.chunk,
                  .compileManifest (effectiveManifest manifest icon)], false⟩
            | some c =>
              ⟨arsc :: ves ++ [⟨"AndroidManifest.xml", .compressed, c.write⟩],
                [.importApk, .importChunk mipmap.chunk,
                  .compileManifest (effectiveManifest manifest icon)], true⟩

/-! ### finish, add_lib, add_directory -/

/-- Events of `Apk::finish` (source lines 117-121), in order: finalize and
flush the zip archive (`self.zip.finish()`), then run the signing step on the
finished file (`sign(&self.path, signer)`). -/
inductive FinishEvent where
  | zipFinish
  | sign
deriving DecidableEq

/-- Embedding of `Apk::finish`: `zip.finish()?` then `sign(...)?`. Each flag
tells whether the corresponding fallible call succeeds; a failing
`zip.finish` returns early, before `sign` is ever invoked. Returns the calls
performed in order plus overall success. -/
def finish (zipFinishOk signOk : Bool) : List FinishEvent × Bool :=
  if zipFinishOk then ([.zipFinish, .sign], signOk) else ([.zipFinish], false)

/-- An OS file name as the source observes it through `to_str()`: either
valid UTF-8 or not. -/
inductive OsName where
  | utf8 (s : String)
  | nonUtf8
deriving DecidableEq

/-- A file-system path as `add_lib` observes it: `file_name()` yields the
final component, absent for paths like `/` or ones ending in `..`. -/
structure FsPath where
  fileName : Option OsName
deriving DecidableEq

/-- The build target; `android_abi()` lives in the absent `target` module, so
the ABI directory name is kept abstract. -/
structure Target where
  androidAbi : String
deriving DecidableEq

/-- File-system collaborator for `add_lib`: `File::open` + reading, fallible. -/
structure LibEnv where
  openFile : FsPath → Option (List Nat)

/-- Embedding of `Apk::add_lib` (source lines 83-96): takes the path's final
file-name component (error if absent), decodes it as UTF-8 (error if not
valid), opens the file (error if that fails), and writes its bytes compressed
at `lib/<android-abi>/<file name>`. Returns the entries written and whether
the call returned `Ok`; every failure is an early `return Err`, never a panic
and never a written entry. -/
def add_lib (env : LibEnv) (target : Target) (path : FsPath) :
    List Entry × Bool :=
  match path.fileName with
  | none => ([], false)
  | some .nonUtf8 => ([], false)
  | some (.utf8 name) =>
    match env.openFile path with
    | none => ([], false)
    | some contents =>
      ([⟨"lib/" ++ target.androidAbi ++ "/" ++ name, .compressed, contents⟩], true)

/-- A directory tree as `add_recursive` observes it through
`read_dir`/`file_type()`: regular files with contents, directories with named
entries in directory order, and entries of any other file type (symbolic
links, sockets, ...). -/
inductive FsNode where
  | file (contents : List Nat)
  | dir (entries : List (String × FsNode))
  | other

/-- Archive path built from components, as `start_file` joins them. -/
def joinPath (segs : List String) : String :=
  String.intercalate "/" segs

mutual
/-- Embedding of `add_recursive` (source lines 132-146): iterates the
directory's entries; a directory entry recurses with both paths extended by
the entry name, a regular file is added compressed at its path under `dest`,
and any other file type is skipped. Returns the entries added in traversal
order. A non-directory node has no directory listing and contributes
nothing. -/
def add_recursive (dest : List String) : FsNode → List Entry
  | .dir entries => addRecEntries dest entries
  | _ => []

/-- The loop body of `add_recursive` over the remaining directory entries. -/
def addRecEntries (dest : List String) : List (String × FsNode) → List Entry
  | [] => []
  | (name, .dir es) :: rest =>
    add_recursive (dest ++ [name]) (.dir es) ++ addRecEntries dest rest
  | (name, .file c) :: rest =>
    ⟨joinPath (dest ++ [name]), .compressed, c⟩ :: addRecEntries dest rest
  | (_, .other) :: rest => addRecEntries dest rest
end

mutual
/-- The regular files reachable from a node, as (relative path, contents)
pairs in traversal order — this follows the claim's words, for comparison
with `add_recursive`. -/
def reachableFiles : FsNode → List (List String × List Nat)
  | .dir entries => reachableFilesEntries entries
  | _ => []

/-- `reachableFiles` over a directory listing. -/
def reachableFilesEntries :
    List (String × FsNode) → List (List String × List Nat)
  | [] => []
  | (name, .dir es) :: rest =>
    (reachableFiles (.dir es)).map (fun pc => (name :: pc.1, pc.2)) ++
      reachableFilesEntries rest
  | (name, .file c) :: rest => ([name], c) :: reachableFilesEntries rest
  | (_, .other) :: rest => reachableFilesEntries rest
end

/-! ### Concrete values for witnesses, counterexamples and fixtures -/

/-- A concrete manifest. -/
def m0 : AndroidManifest :=
  { package := "com.example.app"
    application := { icon := none, rest := [("label", "Example")] }
    rest := [("versionCode", "1")] }

/-- A concrete compiled mipmap family: one type chunk, one density variant. -/
def mm0 : Mipmap :=
  { chunk := Chunk.mk 514 [] []
    variants := [("res/mipmap-mdpi/icon.png", 48)] }

/-- A collaborator environment in which every external call succeeds. -/
def env0 : ResEnv :=
  { importApk := fun t => some t
    scalerOpen := fun _ => some { source := [] }
    optimize := fun s => s
    compileMipmap := fun _ _ => some mm0
    scalerWrite := fun _ _ => some [137, 80, 78, 71]
    compileManifest := fun _ _ => some (Chunk.mk 3 [] []) }

/-- Like `env0`, but manifest compilation fails. -/
def envNoCompile : ResEnv :=
  { env0 with compileManifest := fun _ _ => none }

/-- Like `env0`, but importing the base table fails. -/
def envNoImport : ResEnv :=
  { env0 with importApk := fun _ => none }

/-- A concrete resource-table chunk tree: a string pool and a package chunk
holding a type-spec chunk and a type chunk. -/
def arscChunk : Chunk :=
  Chunk.mk 2 [1, 0, 0, 0]
    [Chunk.mk 1 [1, 0, 0, 0, 0, 0, 0, 0, 0, 1, 0, 0] [],
      Chunk.mk 512 [127, 0, 0, 0]
        [Chunk.mk 514 [2, 0, 0, 0] [], Chunk.mk 513 [2, 1, 0, 4] []]]

/-- A known-valid resource-table byte fixture: the serialization of
`arscChunk`. -/
def arscFixture : List Nat := arscChunk.write

/-- A concrete binary-XML manifest chunk tree: a string pool, a start
element, and an end element under the XML root. -/
def manifestChunk : Chunk :=
  Chunk.mk 3 []
    [Chunk.mk 1 [2, 0, 0, 0, 0, 0, 0, 0, 0, 1, 0, 0] [],
      Chunk.mk 258 [255, 255, 255, 255, 0, 0, 0, 0] [],
      Chunk.mk 259 [255, 255, 255, 255, 0, 0, 0, 0] []]

/-- A known-valid manifest byte fixture: the serialization of
`manifestChunk`. -/
def manifestFixture : List Nat := manifestChunk.write

/-- A concrete library-file environment whose reads succeed. -/
def libEnv0 : LibEnv :=
  { openFile := fun _ => some [127, 69, 76, 70] }

/-- A concrete build target. -/
def target0 : Target :=
  { androidAbi := "arm64-v8a" }

end Apk

namespace Apk

/-! ### Codec lemmas -/

/-- Decoding the two little-endian bytes of a 16-bit value recovers it. -/
theorem r16_bytes (n : Nat) (h : n < 65536) : r16 (n % 256) (n / 256 % 256) = n := by
  unfold r16; omega

/-- Decoding the four little-endian bytes of a 32-bit value recovers it. -/
theorem r32_bytes (n : Nat) (h : n < 4294967296) :
    r32 (n % 256) (n / 256 % 256) (n / 65536 % 256) (n / 16777216 % 256) = n := by
  unfold r32; omega

mutual
/-- The serialized length of a chunk is its declared total length. -/
theorem write_length : ∀ c : Chunk, c.write.length = c.totalLen
  | .mk tag fields children => by
    simp [Chunk.write, Chunk.totalLen, w16, w32, writeList_length children]
    omega

/-- The serialized length of a chunk list is the sum of total lengths. -/
theorem writeList_length :
    ∀ cs : List Chunk, (Chunk.write.writeList cs).length = Chunk.totalLen.totalLenList cs
  | [] => by simp [Chunk.write.writeList, Chunk.totalLen.totalLenList]
  | c :: cs => by
    simp [Chunk.write.writeList, Chunk.totalLen.totalLenList, write_length c,
      writeList_length cs]
end

/-- A serialized chunk always starts with at least one byte. -/
theorem write_cons (c : Chunk) : ∃ x xs, c.write = x :: xs := by
  cases c with
  | mk tag fields children =>
    simp only [Chunk.write, w16, w32, List.cons_append, List.append_assoc]
    exact ⟨_, _, rfl⟩

mutual
/-- The parser fuel a chunk needs is under its byte length. -/
theorem fuelFor_le : ∀ c : Chunk, c.fuelFor + 7 ≤ c.totalLen
  | .mk tag fields children => by
    have h := fuelForList_le children
    rw [Chunk.fuelFor, Chunk.totalLen]; omega

/-- The parser fuel a chunk list needs is under its byte length. -/
theorem fuelForList_le :
    ∀ cs : List Chunk, Chunk.fuelFor.fuelForList cs ≤ Chunk.totalLen.totalLenList cs
  | [] => by simp [Chunk.fuelFor.fuelForList, Chunk.totalLen.totalLenList]
  | c :: cs => by
    have h1 := fuelFor_le c
    have h2 := fuelForList_le cs
    rw [Chunk.fuelFor.fuelForList, Chunk.totalLen.totalLenList]; omega
end

/-- Joint parse-after-write induction: with enough fuel, parsing the
serialization of a well-formed chunk (followed by arbitrary bytes) returns
exactly that chunk and the arbitrary bytes, and parsing the concatenated
serialization of a chunk list returns exactly that list. -/
theorem parse_write_aux (fuel : Nat) :
    (∀ c r, Chunk.wfb c = true → Chunk.fuelFor c ≤ fuel →
      parseChunk fuel (c.write ++ r) = .ok (c, r)) ∧
    (∀ cs, Chunk.wfb.wfbList cs = true → Chunk.fuelFor.fuelForList cs ≤ fuel →
      parseChunks fuel (Chunk.write.writeList cs) = .ok cs) := by
  induction fuel with
  | zero =>
    constructor
    · intro c r _ hf
      cases c with
      | mk tag fields children => simp [Chunk.fuelFor] at hf
    · intro cs hw hf
      cases cs with
      | nil => simp [Chunk.write.writeList, parseChunks]
      | cons c cs => simp [Chunk.fuelFor.fuelForList] at hf
  | succ n ih =>
    obtain ⟨ihP, ihQ⟩ := ih
    constructor
    · intro c r hw hf
      cases c with
      | mk tag fields children =>
        rw [Chunk.wfb] at hw
        simp only [Bool.and_eq_true, decide_eq_true_eq, List.all_eq_true] at hw
        obtain ⟨⟨⟨⟨htag, hhlen⟩, htlen⟩, _hfields⟩, hch⟩ := hw
        rw [Chunk.fuelFor] at hf
        have hfl : Chunk.fuelFor.fuelForList children ≤ n := by omega
        have e1 : (Chunk.mk tag fields children).write ++ r =
            tag % 256 :: tag / 256 % 256 ::
            (8 + fields.length) % 256 :: (8 + fields.length) / 256 % 256 ::
            (8 + fields.length + Chunk.totalLen.totalLenList children) % 256 ::
            (8 + fields.length + Chunk.totalLen.totalLenList children) / 256 % 256 ::
            (8 + fields.length + Chunk.totalLen.totalLenList children) / 65536 % 256 ::
            (8 + fields.length + Chunk.totalLen.totalLenList children) / 16777216 % 256 ::
            (fields ++ (Chunk.write.writeList children ++ r)) := by
          simp [Chunk.write, w16, w32]
        rw [e1, parseChunk]
        rw [r16_bytes tag htag, r16_bytes _ hhlen, r32_bytes _ htlen]
        have hlen1 : (fields ++ (Chunk.write.writeList children ++ r)).length =
            fields.length + (Chunk.totalLen.totalLenList children + r.length) := by
          simp [writeList_length]
        rw [if_neg (by omega), if_neg (by omega)]
        have e2 : 8 + fields.length - 8 = fields.length := by omega
        have e3 : 8 + fields.length + Chunk.totalLen.totalLenList children - (8 + fields.length) =
            Chunk.totalLen.totalLenList children := by omega
        have e4 : 8 + fields.length + Chunk.totalLen.totalLenList children - 8 =
            fields.length + Chunk.totalLen.totalLenList children := by omega
        rw [e2, e3, e4, List.take_left, List.drop_left,
          List.take_left' (writeList_length children)]
        dsimp only []
        rw [ihQ children hch hfl, ← List.append_assoc,
          List.drop_left' (by simp [writeList_length])]
    · intro cs hw hf
      cases cs with
      | nil => simp [Chunk.write.writeList, parseChunks]
      | cons c cs =>
        rw [Chunk.wfb.wfbList] at hw
        simp only [Bool.and_eq_true] at hw
        obtain ⟨hwc, hwcs⟩ := hw
        rw [Chunk.fuelFor.fuelForList] at hf
        have h1 : Chunk.fuelFor c ≤ n := by omega
        have h2 : Chunk.fuelFor.fuelForList cs ≤ n := by omega
        have hpc := ihP c (Chunk.write.writeList cs) hwc h1
        obtain ⟨x, xs, hx⟩ := write_cons c
        rw [Chunk.write.writeList, hx, List.cons_append, parseChunks,
          ← List.cons_append, ← hx, hpc]
        dsimp only []
        rw [ihQ cs hwcs h2]
        simp

end Apk

namespace Apk

/-! ### Claim theorems -/

/-- C4: for every chunk tree `c` produced by this system (well-formed for the
fixed-width header slots), parsing the bytes produced by writing `c` yields a
chunk tree equal to `c` with no unconsumed remainder: `parse(write(c)) = c`. -/
theorem parse_write_roundtrip (c : Chunk) (h : Chunk.wfb c = true) :
    Chunk.parse c.write = .ok (c, []) := by
  have hf : Chunk.fuelFor c ≤ c.write.length := by
    rw [write_length]
    have h7 := fuelFor_le c
    omega
  have hb := (parse_write_aux c.write.length).1 c [] h hf
  simpa [Chunk.parse] using hb

/-- Witness for C4 at a concrete resource-table chunk tree. -/
theorem parse_write_roundtrip_witness :
    Chunk.wfb arscChunk = true ∧
    Chunk.parse arscChunk.write = .ok (arscChunk, []) :=
  ⟨rfl, parse_write_roundtrip arscChunk rfl⟩

/-- C5: parsing the known-valid resource-table and manifest byte fixtures
succeeds and consumes exactly the fixtures' lengths: the parser returns with
an empty unconsumed remainder, so the reader position equals the fixture
byte length — no trailing unparsed bytes and no read past the end. -/
theorem fixture_parse_exhaustive :
    Chunk.parse arscFixture = .ok (arscChunk, []) ∧
    Chunk.parse manifestFixture = .ok (manifestChunk, []) :=
  ⟨rfl, rfl⟩

/-- C6: in `Apk::finish` the signing step runs at most once, in every
successful run it runs exactly once with the archive finalization strictly
before it, and whenever it runs at all the zip finalization already
happened first. -/
theorem finish_sign_after_zip_finish (zo so : Bool) :
    ((finish zo so).1.count FinishEvent.sign ≤ 1) ∧
    ((finish zo so).2 = true → (finish zo so).1 = [.zipFinish, .sign]) ∧
    (FinishEvent.sign ∈ (finish zo so).1 →
      (finish zo so).1 = [.zipFinish, .sign]) := by
  cases zo <;> cases so <;> simp [finish]

/-- Witness for C6: a successful finish performs exactly zip-finish then sign. -/
theorem finish_sign_after_zip_finish_witness :
    (finish true true).1 = [FinishEvent.zipFinish, FinishEvent.sign] :=
  (finish_sign_after_zip_finish true true).2.1 rfl

end Apk

namespace Apk

/-! ### add_res: entry and operation ordering claims -/

/-- C7: `add_res` performs table operations in the required order in every
invocation and environment: the recorded operation sequence is nondecreasing
in pipeline rank (base-table import, then chunk merges, then manifest
compilation), so every import/merge precedes `compile_manifest`; moreover a
chunk merge only happens in runs where the base-table import was performed
first. -/
theorem add_res_table_op_order (env : ResEnv) (m : AndroidManifest)
    (icon : Option String) :
    (((add_res env m icon).ops.map TableOp.rank).Chain' (· ≤ ·)) ∧
    (∀ c : Chunk, TableOp.importChunk c ∈ (add_res env m icon).ops →
      TableOp.importApk ∈ (add_res env m icon).ops) := by
  unfold add_res
  rcases h1 : env.importApk {} with _ | table
  · simp [TableOp.rank]
  · rcases icon with _ | p
    · rcases h2 : env.compileManifest (effectiveManifest m none) table with _ | c <;>
        simp [h2, TableOp.rank]
    · rcases h3 : env.scalerOpen p with _ | s
      · simp [h3, TableOp.rank]
      · rcases h4 : env.compileMipmap m.package "icon" with _ | mm
        · simp [h3, h4, TableOp.rank]
        · rcases h5 : writeVariants env (env.optimize s) mm.variants with ⟨ves, _ | _⟩
          · simp [h3, h4, h5, TableOp.rank]
          · rcases h6 : env.compileManifest (effectiveManifest m (some p))
                (table.import_chunk mm.chunk) with _ | c <;>
              simp [h3, h4, h5, h6, TableOp.rank]

/-- Witness for C7: on a concrete run with an icon, the merged chunk's
merge is preceded by the base-table import. -/
theorem add_res_table_op_order_witness :
    TableOp.importApk ∈ (add_res env0 m0 (some "icon.png")).ops :=
  (add_res_table_op_order env0 m0 (some "icon.png")).2 mm0.chunk
    (List.Mem.tail _ (List.Mem.head _))

/-- C8: the only manifest `add_res` ever compiles is the caller's manifest
with at most `application.icon` changed: with an icon path the icon field is
unconditionally overwritten to `"@mipmap/icon"` (all other fields unchanged),
and with no icon the manifest is compiled exactly as given. -/
theorem add_res_manifest_frame (env : ResEnv) (m : AndroidManifest)
    (icon : Option String) :
    (∀ m', TableOp.compileManifest m' ∈ (add_res env m icon).ops →
      m' = effectiveManifest m icon) ∧
    effectiveManifest m none = m ∧
    (∀ p, (effectiveManifest m (some p)).application.icon = some "@mipmap/icon" ∧
      (effectiveManifest m (some p)).application.rest = m.application.rest ∧
      (effectiveManifest m (some p)).package = m.package ∧
      (effectiveManifest m (some p)).rest = m.rest) := by
  refine ⟨?_, rfl, fun p => ⟨rfl, rfl, rfl, rfl⟩⟩
  unfold add_res
  rcases h1 : env.importApk {} with _ | table
  · simp
  · rcases icon with _ | p
    · rcases h2 : env.compileManifest (effectiveManifest m none) table with _ | c <;>
        simp [h2]
    · rcases h3 : env.scalerOpen p with _ | s
      · simp [h3]
      · rcases h4 : env.compileMipmap m.package "icon" with _ | mm
        · simp [h3, h4]
        · rcases h5 : writeVariants env (env.optimize s) mm.variants with ⟨ves, _ | _⟩
          · simp [h3, h4, h5]
          · rcases h6 : env.compileManifest (effectiveManifest m (some p))
                (table.import_chunk mm.chunk) with _ | c <;>
              simp [h3, h4, h5, h6]

/-- Witness for C8: the manifest compiled on a concrete run with an icon is
the caller's manifest with only the icon field overwritten. -/
theorem add_res_manifest_frame_witness :
    ({ package := "com.example.app"
       application := { icon := some "@mipmap/icon", rest := [("label", "Example")] }
       rest := [("versionCode", "1")] } : AndroidManifest) =
      effectiveManifest m0 (some "icon.png") :=
  (add_res_manifest_frame env0 m0 (some "icon.png")).1 _
    (List.Mem.tail _ (List.Mem.tail _ (List.Mem.head _)))

/-- Counterexample to C1 as stated: a successful `add_res` call with no icon
path writes only the `AndroidManifest.xml` entry — no `resources.arsc` entry
is ever written on this path. -/
theorem add_res_success_without_arsc :
    (add_res env0 m0 none).ok = true ∧
    (add_res env0 m0 none).entries.map Entry.name = ["AndroidManifest.xml"] :=
  ⟨rfl, rfl⟩

/-- C1 (amended): every successful `add_res` call writes an
`AndroidManifest.xml` entry compressed, and it writes a `resources.arsc`
entry (stored with 4-byte alignment) precisely when an icon path is
supplied. -/
theorem add_res_entries_characterization (env : ResEnv) (m : AndroidManifest)
    (icon : Option String) (h : (add_res env m icon).ok = true) :
    (∃ e ∈ (add_res env m icon).entries,
      e.name = "AndroidManifest.xml" ∧ e.opts = ZipFileOptions.compressed) ∧
    (icon.isSome = true ↔ ∃ e ∈ (add_res env m icon).entries,
      e.name = "resources.arsc" ∧ e.opts = ZipFileOptions.aligned 4) := by
  unfold add_res at h ⊢
  rcases h1 : env.importApk {} with _ | table
  · simp [h1] at h
  · rcases icon with _ | p
    · rcases h2 : env.compileManifest (effectiveManifest m none) table with _ | c
      · simp [h1, h2] at h
      · simp [h1, h2]
    · rcases h3 : env.scalerOpen p with _ | s
      · simp [h1, h3] at h
      · rcases h4 : env.compileMipmap m.package "icon" with _ | mm
        · simp [h1, h3, h4] at h
        · rcases h5 : writeVariants env (env.optimize s) mm.variants with ⟨ves, _ | _⟩
          · simp [h1, h3, h4, h5] at h
          · rcases h6 : env.compileManifest (effectiveManifest m (some p))
                (table.import_chunk mm.chunk) with _ | c
            · simp [h1, h3, h4, h5, h6] at h
            · constructor
              · refine ⟨⟨"AndroidManifest.xml", .compressed, c.write⟩, ?_, rfl, rfl⟩
                simp [h1, h3, h4, h5, h6]
              · refine ⟨fun _ => ⟨⟨"resources.arsc", .aligned 4, mm.chunk.write⟩,
                  ?_, rfl, rfl⟩, fun _ => rfl⟩
                simp [h1, h3, h4, h5, h6]

/-- Witness for C1: a concrete fully-successful run with an icon has both
guaranteed entries. -/
theorem add_res_entries_characterization_witness :
    (∃ e ∈ (add_res env0 m0 (some "icon.png")).entries,
      e.name = "AndroidManifest.xml" ∧ e.opts = ZipFileOptions.compressed) ∧
    ((some "icon.png" : Option String).isSome = true ↔
      ∃ e ∈ (add_res env0 m0 (some "icon.png")).entries,
        e.name = "resources.arsc" ∧ e.opts = ZipFileOptions.aligned 4) :=
  add_res_entries_characterization env0 m0 (some "icon.png") rfl

/-- Counterexample to C2 as stated: when an icon is supplied and
`compile_manifest` fails, the call returns `Err` but the `resources.arsc`
entry and the icon-variant entry written before the failure remain in
the archive. -/
theorem add_res_failed_compile_leaves_entries :
    (add_res envNoCompile m0 (some "icon.png")).ok = false ∧
    (add_res envNoCompile m0 (some "icon.png")).entries.map Entry.name =
      ["resources.arsc", "res/mipmap-mdpi/icon.png"] :=
  ⟨rfl, rfl⟩

/-- C2 (amended): a failed `add_res` call with no icon path writes nothing,
and in general a failed call leaves either nothing or a residue that starts
with the `resources.arsc` entry written on the icon path before the failure
(in particular, no partial `AndroidManifest.xml` artifact is ever the first
residue entry). -/
theorem add_res_failure_residue (env : ResEnv) (m : AndroidManifest)
    (icon : Option String) (h : (add_res env m icon).ok = false) :
    (icon = none → (add_res env m icon).entries = []) ∧
    ((add_res env m icon).entries = [] ∨
      (add_res env m icon).entries.head?.map Entry.name = some "resources.arsc") := by
  unfold add_res
  rcases h1 : env.importApk {} with _ | table
  · simp [h1]
  · rcases icon with _ | p
    · rcases h2 : env.compileManifest (effectiveManifest m none) table with _ | c
      · simp [h1, h2]
      · unfold add_res at h; simp [h1, h2] at h
    · rcases h3 : env.scalerOpen p with _ | s
      · simp [h1, h3]
      · rcases h4 : env.compileMipmap m.package "icon" with _ | mm
        · simp [h1, h3, h4]
        · rcases h5 : writeVariants env (env.optimize s) mm.variants with ⟨ves, _ | _⟩
          · simp [h1, h3, h4, h5]
          · rcases h6 : env.compileManifest (effectiveManifest m (some p))
                (table.import_chunk mm.chunk) with _ | c
            · simp [h1, h3, h4, h5, h6]
            · unfold add_res at h; simp [h1, h3, h4, h5, h6] at h

/-- Witness for C2: a concrete failed import with no icon writes nothing. -/
theorem add_res_failure_residue_witness :
    (add_res envNoImport m0 none).entries = [] :=
  (add_res_failure_residue envNoImport m0 none rfl).1 rfl

/-! ### The resources.arsc bytes (C3) -/

/-- The serialized length of concatenated chunk lists adds up. -/
theorem totalLenList_append (xs ys : List Chunk) :
    Chunk.totalLen.totalLenList (xs ++ ys) =
      Chunk.totalLen.totalLenList xs + Chunk.totalLen.totalLenList ys := by
  induction xs with
  | nil => simp [Chunk.totalLen.totalLenList]
  | cons c cs ih => simp [Chunk.totalLen.totalLenList, ih]; omega

/-- Every chunk occupies at least its 8-byte header. -/
theorem totalLen_ge (c : Chunk) : 8 ≤ c.totalLen := by
  cases c with
  | mk tag fields children => rw [Chunk.totalLen]; omega

/-- Counterexample to C3 as stated: on a concrete successful run the bytes
of the `resources.arsc` entry are the serialization of the mipmap chunk
alone, which differs from the serialization of the table after the merge. -/
theorem arsc_bytes_not_table_serialization :
    (add_res env0 m0 (some "icon.png")).entries.head?.map Entry.data =
      some mm0.chunk.write ∧
    mm0.chunk.write ≠ (Table.import_chunk ⟨[]⟩ mm0.chunk).serialize :=
  ⟨rfl, by decide⟩

/-- C3 (amended): whenever `add_res` runs with an icon and the mipmap
compiles, the `resources.arsc` entry it writes holds exactly the
serialization of the mipmap type chunk, produced before that chunk is merged
into the table — and those bytes are never the serialization of any table
that has the chunk merged in. -/
theorem arsc_entry_is_premerge_mipmap_chunk (env : ResEnv) (m : AndroidManifest)
    (p : String) (s : Scaler) (mm : Mipmap) (t : Table)
    (h1 : env.importApk {} = some t)
    (h2 : env.scalerOpen p = some s)
    (h3 : env.compileMipmap m.package "icon" = some mm) :
    (add_res env m (some p)).entries.head? =
      some ⟨"resources.arsc", ZipFileOptions.aligned 4, mm.chunk.write⟩ ∧
    (∀ t2 : Table, mm.chunk.write ≠ (t2.import_chunk mm.chunk).serialize) := by
  constructor
  · unfold add_res
    rcases h5 : writeVariants env (env.optimize s) mm.variants with ⟨ves, _ | _⟩
    · simp [h1, h2, h3, h5]
    · rcases h6 : env.compileManifest (effectiveManifest m (some p))
          (t.import_chunk mm.chunk) with _ | c <;>
        simp [h1, h2, h3, h5, h6]
  · intro t2 heq
    have hlen := congrArg List.length heq
    rw [write_length, Table.serialize, write_length, Chunk.totalLen,
      Table.import_chunk] at hlen
    simp only [w32, List.length_cons, List.length_nil] at hlen
    rw [totalLenList_append] at hlen
    simp only [Chunk.totalLen.totalLenList] at hlen
    omega

/-- Witness for C3: the concrete run's `resources.arsc` entry holds the
pre-merge mipmap chunk bytes. -/
theorem arsc_entry_is_premerge_mipmap_chunk_witness :
    (add_res env0 m0 (some "icon.png")).entries.head? =
      some ⟨"resources.arsc", ZipFileOptions.aligned 4, mm0.chunk.write⟩ :=
  (arsc_entry_is_premerge_mipmap_chunk env0 m0 "icon.png" ⟨[]⟩ mm0 ⟨[]⟩
    rfl rfl rfl).1

/-! ### add_lib and add_directory -/

/-- C9: `add_lib` returns an error — without writing any entry — whenever
the library path lacks a final file-name component or that name is not valid
UTF-8; with a valid name and a readable file it writes the file's bytes
compressed at `lib/<android-abi>/<file name>`. -/
theorem add_lib_name_validation (env : LibEnv) (t : Target) (p : FsPath) :
    ((p.fileName = none ∨ p.fileName = some OsName.nonUtf8) →
      add_lib env t p = ([], false)) ∧
    (∀ name contents, p.fileName = some (OsName.utf8 name) →
      env.openFile p = some contents →
      add_lib env t p =
        ([⟨"lib/" ++ t.androidAbi ++ "/" ++ name, ZipFileOptions.compressed,
          contents⟩], true)) := by
  constructor
  · rintro (h | h) <;> simp [add_lib, h]
  · intro name contents h1 h2
    simp [add_lib, h1, h2]

/-- Witness for C9: a concrete library file lands compressed under the ABI
directory. -/
theorem add_lib_name_validation_witness :
    add_lib libEnv0 target0 ⟨some (OsName.utf8 "libapp.so")⟩ =
      ([⟨"lib/" ++ "arm64-v8a" ++ "/" ++ "libapp.so", ZipFileOptions.compressed,
        [127, 69, 76, 70]⟩], true) :=
  (add_lib_name_validation libEnv0 target0 ⟨some (OsName.utf8 "libapp.so")⟩).2
    "libapp.so" [127, 69, 76, 70] rfl rfl

mutual
/-- Joint induction for C10, chunk of the tree. -/
theorem addRec_files_aux : ∀ (dest : List String) (t : FsNode),
    add_recursive dest t =
      (reachableFiles t).map
        (fun pc => ⟨joinPath (dest ++ pc.1), .compressed, pc.2⟩)
  | dest, .file c => by simp [add_recursive, reachableFiles]
  | dest, .other => by simp [add_recursive, reachableFiles]
  | dest, .dir es => by
    rw [add_recursive, reachableFiles]
    exact addRecEntries_files_aux dest es

/-- Joint induction for C10, directory listing. -/
theorem addRecEntries_files_aux :
    ∀ (dest : List String) (es : List (String × FsNode)),
    addRecEntries dest es =
      (reachableFilesEntries es).map
        (fun pc => ⟨joinPath (dest ++ pc.1), .compressed, pc.2⟩)
  | dest, [] => by simp [addRecEntries, reachableFilesEntries]
  | dest, (name, .file c) :: rest => by
    rw [addRecEntries, reachableFilesEntries]
    simp [addRecEntries_files_aux dest rest]
  | dest, (name, .dir es2) :: rest => by
    rw [addRecEntries, reachableFilesEntries]
    rw [addRec_files_aux (dest ++ [name]) (.dir es2),
      addRecEntries_files_aux dest rest]
    simp [List.map_map, Function.comp_def]
  | dest, (name, .other) :: rest => by
    rw [addRecEntries, reachableFilesEntries]
    exact addRecEntries_files_aux dest rest
end

/-- C10: `add_recursive` adds exactly the regular files reachable from the
source directory, in traversal order, each compressed and at its relative
path under the destination prefix; entries that are neither regular files
nor directories contribute nothing, silently. -/
theorem add_recursive_files_exact (dest : List String) (t : FsNode) :
    add_recursive dest t =
      (reachableFiles t).map
        (fun pc => ⟨joinPath (dest ++ pc.1), ZipFileOptions.compressed, pc.2⟩) :=
  addRec_files_aux dest t

end Apk
